import Mathlib

/-!
Verification of the batch-engine file-ingestion-and-update pipeline.

Python strings are modelled as `List Char`, raw file bytes as `List (Fin 256)`.
The definitions follow `src/utils/file_utils.py` and
`src/services/record_service.py`; external collaborators (the pandas
spreadsheet reader, the document store, uuid/clock) are modelled as explicit
parameters, so the service functions stay pure and executable.
-/

namespace BatchEngine

abbrev Str := List Char

abbrev Byte := Fin 256

/-! ## Sanitization (`sanitize_column_name`, src/utils/file_utils.py lines 11-23) -/

/-- Python `str.isspace` for a single character: the Unicode whitespace set
used by `str.strip()` (ASCII 9-13, 28-31, space, NEL, NBSP and the Unicode
space separators). -/
def pyIsSpace (c : Char) : Bool :=
  let n := c.toNat
  (9 ≤ n && n ≤ 13) || (28 ≤ n && n ≤ 31) || n == 32 || n == 0x85 || n == 0xA0 ||
  n == 0x1680 || (0x2000 ≤ n && n ≤ 0x200A) || n == 0x2028 || n == 0x2029 ||
  n == 0x202F || n == 0x205F || n == 0x3000

/-- Python `str.strip()`: remove leading and trailing whitespace. -/
def pyStrip (s : Str) : Str :=
  ((s.dropWhile pyIsSpace).reverse.dropWhile pyIsSpace).reverse

/-- The character filter on line 22 of file_utils.py: keep `c` when
`ord(c) >= 32 or c in '\t'`. -/
def keepChar (c : Char) : Bool :=
  32 ≤ c.toNat || c == '\t'

/-- `sanitize_column_name` (file_utils.py lines 11-23): strip NUL bytes, trim
whitespace, drop remaining control characters below 32 except tab, and
substitute the placeholder `"unnamed_column"` when the result is empty. -/
def sanitize_column_name (name : Str) : Str :=
  let s1 := name.filter (fun c => c ≠ '\x00')
  let s2 := pyStrip s1
  let s3 := s2.filter keepChar
  if s3.isEmpty then "unnamed_column".toList else s3

/-! ## Byte decoding (file_utils.py lines 47-57) -/

/-- A UTF-8 continuation byte (0x80-0xBF). -/
def isCont (b : Byte) : Bool :=
  0x80 ≤ b.val && b.val ≤ 0xBF

/-- Strict UTF-8 decoding of a byte sequence, as Python
`bytes.decode('utf-8')`: rejects overlong encodings, surrogates and
out-of-range sequences; `none` models `UnicodeDecodeError`. -/
def utf8Decode : List Byte → Option Str
  | [] => some []
  | b :: rest =>
    let n := b.val
    if n < 0x80 then
      (utf8Decode rest).map (fun cs => Char.ofNat n :: cs)
    else if n < 0xC2 then
      none
    else if n ≤ 0xDF then
      match rest with
      | b2 :: rest2 =>
        if isCont b2 then
          (utf8Decode rest2).map
            (fun cs => Char.ofNat ((n - 0xC0) * 0x40 + (b2.val - 0x80)) :: cs)
        else none
      | [] => none
    else if n ≤ 0xEF then
      match rest with
      | b2 :: b3 :: rest3 =>
        let lo2 := if n == 0xE0 then 0xA0 else 0x80
        let hi2 := if n == 0xED then 0x9F else 0xBF
        if (lo2 ≤ b2.val && b2.val ≤ hi2) && isCont b3 then
          (utf8Decode rest3).map
            (fun cs =>
              Char.ofNat ((n - 0xE0) * 0x1000 + (b2.val - 0x80) * 0x40 +
                (b3.val - 0x80)) :: cs)
        else none
      | _ => none
    else if n ≤ 0xF4 then
      match rest with
      | b2 :: b3 :: b4 :: rest4 =>
        let lo2 := if n == 0xF0 then 0x90 else 0x80
        let hi2 := if n == 0xF4 then 0x8F else 0xBF
        if (lo2 ≤ b2.val && b2.val ≤ hi2) && isCont b3 && isCont b4 then
          (utf8Decode rest4).map
            (fun cs =>
              Char.ofNat ((n - 0xF0) * 0x40000 + (b2.val - 0x80) * 0x1000 +
                (b3.val - 0x80) * 0x40 + (b4.val - 0x80)) :: cs)
        else none
      | _ => none
    else none

/-- Strip a UTF-8 byte-order mark (EF BB BF) from the front, when present. -/
def stripBom (bs : List Byte) : List Byte :=
  match bs with
  | b1 :: b2 :: b3 :: rest =>
    if b1.val == 0xEF && b2.val == 0xBB && b3.val == 0xBF then rest else bs
  | _ => bs

/-- Python `bytes.decode('utf-8-sig')`: drop a leading BOM, then strict UTF-8. -/
def utf8SigDecode (bs : List Byte) : Option Str :=
  utf8Decode (stripBom bs)

/-- Python `bytes.decode('latin-1')`: every byte maps directly to the code
point of the same value, so this decoder is total. -/
def latin1Decode (bs : List Byte) : Option Str :=
  some (bs.map (fun b => Char.ofNat b.val))

/-- The Windows-1252 mapping for the bytes 0x80-0x9F; `none` for the five
unassigned bytes (0x81, 0x8D, 0x8F, 0x90, 0x9D), which make a strict
`cp1252` decode fail. All other bytes map to their own value. -/
def cp1252Point (n : Nat) : Option Nat :=
  if n < 0x80 || 0x9F < n then some n
  else if n == 0x80 then some 0x20AC
  else if n == 0x82 then some 0x201A
  else if n == 0x83 then some 0x0192
  else if n == 0x84 then some 0x201E
  else if n == 0x85 then some 0x2026
  else if n == 0x86 then some 0x2020
  else if n == 0x87 then some 0x2021
  else if n == 0x88 then some 0x02C6
  else if n == 0x89 then some 0x2030
  else if n == 0x8A then some 0x0160
  else if n == 0x8B then some 0x2039
  else if n == 0x8C then some 0x0152
  else if n == 0x8E then some 0x017D
  else if n == 0x91 then some 0x2018
  else if n == 0x92 then some 0x2019
  else if n == 0x93 then some 0x201C
  else if n == 0x94 then some 0x201D
  else if n == 0x95 then some 0x2022
  else if n == 0x96 then some 0x2013
  else if n == 0x97 then some 0x2014
  else if n == 0x98 then some 0x02DC
  else if n == 0x99 then some 0x2122
  else if n == 0x9A then some 0x0161
  else if n == 0x9B then some 0x203A
  else if n == 0x9C then some 0x0153
  else if n == 0x9E then some 0x017E
  else some 0x0178

/-- Python `bytes.decode('cp1252')` (strict). -/
def cp1252Decode : List Byte → Option Str
  | [] => some []
  | b :: rest =>
    match cp1252Point b.val with
    | some n => (cp1252Decode rest).map (fun cs => Char.ofNat n :: cs)
    | none => none

/-- Fuel-indexed worker for UTF-8 decoding with invalid-byte skipping; every
step consumes at least one byte, so fuel bounded below by the input length
makes the worker exact. -/
def utf8IgnoreFuel : Nat → List Byte → Str
  | 0, _ => []
  | _ + 1, [] => []
  | fuel + 1, b :: rest =>
    let n := b.val
    if n < 0x80 then
      Char.ofNat n :: utf8IgnoreFuel fuel rest
    else if n < 0xC2 then
      utf8IgnoreFuel fuel rest
    else if n ≤ 0xDF then
      match rest with
      | b2 :: rest2 =>
        if isCont b2 then
          Char.ofNat ((n - 0xC0) * 0x40 + (b2.val - 0x80)) :: utf8IgnoreFuel fuel rest2
        else utf8IgnoreFuel fuel (b2 :: rest2)
      | [] => []
    else if n ≤ 0xEF then
      match rest with
      | b2 :: b3 :: rest3 =>
        let lo2 := if n == 0xE0 then 0xA0 else 0x80
        let hi2 := if n == 0xED then 0x9F else 0xBF
        if (lo2 ≤ b2.val && b2.val ≤ hi2) && isCont b3 then
          Char.ofNat ((n - 0xE0) * 0x1000 + (b2.val - 0x80) * 0x40 +
            (b3.val - 0x80)) :: utf8IgnoreFuel fuel rest3
        else utf8IgnoreFuel fuel rest
      | _ => utf8IgnoreFuel fuel rest
    else if n ≤ 0xF4 then
      match rest with
      | b2 :: b3 :: b4 :: rest4 =>
        let lo2 := if n == 0xF0 then 0x90 else 0x80
        let hi2 := if n == 0xF4 then 0x8F else 0xBF
        if (lo2 ≤ b2.val && b2.val ≤ hi2) && isCont b3 && isCont b4 then
          Char.ofNat ((n - 0xF0) * 0x40000 + (b2.val - 0x80) * 0x1000 +
            (b3.val - 0x80) * 0x40 + (b4.val - 0x80)) :: utf8IgnoreFuel fuel rest4
        else utf8IgnoreFuel fuel rest
      | _ => utf8IgnoreFuel fuel rest
    else utf8IgnoreFuel fuel rest

/-- Python `bytes.decode('utf-8', errors='ignore')`: decode UTF-8, silently
skipping bytes that do not start a valid sequence. Total by construction. -/
def utf8DecodeIgnore (bs : List Byte) : Str :=
  utf8IgnoreFuel bs.length bs

/-- The candidate encodings of the decode loop, in the order of line 47 of
file_utils.py. -/
inductive PyEncoding where
  | utf8
  | utf8sig
  | latin1
  | cp1252
deriving DecidableEq, Repr

/-- Dispatch a named encoding to its strict decoder. -/
def decodeWith : PyEncoding → List Byte → Option Str
  | .utf8, bs => utf8Decode bs
  | .utf8sig, bs => utf8SigDecode bs
  | .latin1, bs => latin1Decode bs
  | .cp1252, bs => cp1252Decode bs

/-- The encoding priority list `['utf-8', 'utf-8-sig', 'latin-1', 'cp1252']`. -/
def encodings : List PyEncoding :=
  [.utf8, .utf8sig, .latin1, .cp1252]

/-- The `for encoding in encodings: try ... break` loop (file_utils.py lines
49-54): the first decoder that does not raise wins. -/
def firstSuccessfulDecode : List PyEncoding → List Byte → Option Str
  | [], _ => none
  | e :: es, bs =>
    match decodeWith e bs with
    | some s => some s
    | none => firstSuccessfulDecode es bs

/-- Lines 47-57 of file_utils.py: run the encoding loop; if every strict
attempt failed (`decoded is None`), fall back to UTF-8 with
invalid-byte-skipping. -/
def decodeBest (bs : List Byte) : Str :=
  match firstSuccessfulDecode encodings bs with
  | some s => s
  | none => utf8DecodeIgnore bs

/-! ## CSV first-record parsing (file_utils.py lines 59-63) -/

/-- Parser states of the CPython `csv` reader restricted to the excel
dialect on input whose line endings are already normalized to a single
newline and whose NUL bytes are already removed. -/
inductive CsvState where
  | startField
  | inField
  | inQuoted
  | quoteInQuoted
deriving DecidableEq, Repr

/-- One step per character of the CPython csv state machine (excel dialect,
non-strict): `cur` is the field being accumulated, `fields` the completed
fields of the first record. Parsing stops at the first record. -/
def csvRecordAux : CsvState → List Char → Str → List Str → List Str
  | .startField, [], cur, fields => fields ++ [cur]
  | .startField, c :: rest, cur, fields =>
    if c = '\"' then csvRecordAux .inQuoted rest cur fields
    else if c = ',' then csvRecordAux .startField rest [] (fields ++ [cur])
    else if c = '\n' then fields ++ [cur]
    else csvRecordAux .inField rest (cur ++ [c]) fields
  | .inField, [], cur, fields => fields ++ [cur]
  | .inField, c :: rest, cur, fields =>
    if c = ',' then csvRecordAux .startField rest [] (fields ++ [cur])
    else if c = '\n' then fields ++ [cur]
    else csvRecordAux .inField rest (cur ++ [c]) fields
  | .inQuoted, [], cur, fields => fields ++ [cur]
  | .inQuoted, c :: rest, cur, fields =>
    if c = '\"' then csvRecordAux .quoteInQuoted rest cur fields
    else csvRecordAux .inQuoted rest (cur ++ [c]) fields
  | .quoteInQuoted, [], cur, fields => fields ++ [cur]
  | .quoteInQuoted, c :: rest, cur, fields =>
    if c = '\"' then csvRecordAux .inQuoted rest (cur ++ ['\"']) fields
    else if c = ',' then csvRecordAux .startField rest [] (fields ++ [cur])
    else if c = '\n' then fields ++ [cur]
    else csvRecordAux .inField rest (cur ++ [c]) fields

/-- `next(csv.reader(io.StringIO(decoded, newline='')), [])`: the first CSV
record, with `[]` both for empty input (the `next` default) and for a blank
first line. -/
def csvFirstRecord (s : Str) : List Str :=
  match s with
  | [] => []
  | c :: _ =>
    if c = '\n' then []
    else csvRecordAux .startField s [] []

/-- Python `decoded.replace('\r\n', '\n')`: left-to-right, non-overlapping. -/
def replaceCRLF : Str → Str
  | '\r' :: '\n' :: rest => '\n' :: replaceCRLF rest
  | c :: rest => c :: replaceCRLF rest
  | [] => []

/-- Line 60 of file_utils.py: `replace('\r\n', '\n').replace('\r', '\n')`. -/
def normalizeNewlines (s : Str) : Str :=
  (replaceCRLF s).map (fun c => if c = '\r' then '\n' else c)

/-- Lines 47-62 of file_utils.py: decode the raw bytes, strip NUL characters
from the decoded text, and normalize line endings. -/
def csvPreprocess (content : List Byte) : Str :=
  normalizeNewlines ((decodeBest content).filter (fun c => c ≠ '\x00'))

/-- The whole CSV branch (file_utils.py lines 47-64): preprocess, take the
first record as the header, sanitize each cell, and keep only the cells
whose sanitized form is truthy (non-empty). -/
def csvColumns (content : List Byte) : List Str :=
  ((csvFirstRecord (csvPreprocess content)).map sanitize_column_name).filter
    (fun c => !c.isEmpty)

/-! ## Column extraction (`extract_columns_from_file`, lines 26-72) -/

/-- The `FileInfo` value returned by the extractor: original filename plus
the sanitized column list (db/schemas.py). -/
structure FileInfo where
  filename : Str
  columns : List Str
deriving DecidableEq, Repr

/-- `filename.lower().split('.')[-1]` (file_utils.py line 40). The Python
`lower()` is modelled on its ASCII fragment, which is all that the
comparison against `'xlsx'`/`'xls'` can observe. -/
def lastExt (filename : Str) : Str :=
  ((filename.map Char.toLower).splitOn '.').getLastD []

/-- The `FileProcessingError` message
`f"Error processing file '{filename}': {str(e)}"` (file_utils.py line 72). -/
def fpeMessage (filename cause : Str) : Str :=
  "Error processing file \x27".toList ++ filename ++ "\x27: ".toList ++ cause

/-- `extract_columns_from_file` (file_utils.py lines 26-72).
`readExcelColumns` models the external `pd.read_excel(..., nrows=0)` call
followed by `df.columns.tolist()`: it either returns the raw header labels
or fails with an exception text. Any exception inside the `try` block is
re-raised as a `FileProcessingError` whose message carries the filename and
the cause; the CSV branch of this model is total (see the decode-totality
theorem), so only the spreadsheet branch can fail. -/
def extract_columns_from_file (readExcelColumns : List Byte → Except Str (List Str))
    (file_content : List Byte) (filename : Str) : Except Str FileInfo :=
  let file_ext := lastExt filename
  let res : Except Str (List Str) :=
    if file_ext = "xlsx".toList ∨ file_ext = "xls".toList then
      match readExcelColumns file_content with
      | .ok labels => .ok (labels.map sanitize_column_name)
      | .error e => .error e
    else
      .ok (csvColumns file_content)
  match res with
  | .ok cols => .ok ⟨filename, cols⟩
  | .error e => .error (fpeMessage filename e)

/-! ## Record service (src/services/record_service.py) -/

/-- An uploaded file as the service sees it: the filename reported by the
client (empty models both `None` and `""`, which the code only ever tests
for truthiness) and the raw content bytes. -/
structure UploadFile where
  filename : Str
  content : List Byte
deriving DecidableEq, Repr

/-- Checks whether a string is accepted by `bson.ObjectId` (the check behind
`validate_object_id`, record_service.py lines 36-41): a 24-character
hexadecimal string. Modelled from the store driver, which is an external
collaborator of src/. -/
def isValidObjectIdStr (s : Str) : Bool :=
  s.length == 24 && s.all (fun c =>
    ('0' ≤ c && c ≤ '9') || ('a' ≤ c && c ≤ 'f') || ('A' ≤ c && c ≤ 'F'))

/-- The error taxonomy of record_service.py (lines 16-28) plus the
`FileProcessingError` propagated from file_utils.py; each constructor
carries the exception message. -/
inductive ServiceError where
  | invalidRecordId (msg : Str)
  | recordNotFound (msg : Str)
  | noDataProvided (msg : Str)
  | fileProcessing (msg : Str)
deriving DecidableEq, Repr

/-- A value staged in the `update_data` dictionary: the loosely-typed forms
written to the store plus the two typed shadow entries used only for
response construction. -/
inductive Value where
  | files (l : List FileInfo)
  | cols (l : List Str)
  | str (s : Str)
  | time (t : Nat)
  | shadowFiles (o : Option (List FileInfo))
  | shadowCols (o : Option (List Str))
deriving DecidableEq, Repr

/-- The observable interactions of one `update_record` call with the outside
world: the existence lookup, the store write (with the exact document
passed to `$set`), and each file parse. -/
inductive Effect where
  | findOne
  | updateOne (doc : List (String × Value))
  | parseFile (filename : Str)
deriving DecidableEq, Repr

/-- The behaviour of the external collaborators during one call: what
`find_one` returns (truthiness), the `modified_count` reported by
`update_one`, the generated `str(uuid.uuid4())` and the current IST
timestamp (abstract). -/
structure World where
  recordFound : Bool
  modifiedCount : Nat
  taskId : Str
  now : Nat
deriving DecidableEq, Repr

/-- `RecordService._process_file` (record_service.py lines 57-61): read the
upload and extract its columns, recording the parse as an effect. -/
def _process_file (px : List Byte → Except Str (List Str)) (f : UploadFile) :
    Except Str FileInfo × List Effect :=
  (extract_columns_from_file px f.content f.filename, [Effect.parseFile f.filename])

/-- `RecordService._process_input_files` (lines 63-69): process, in order,
every file whose filename is truthy; the first failing parse aborts the
remaining ones, as a raised exception does in the list comprehension. -/
def _process_input_files (px : List Byte → Except Str (List Str)) :
    List UploadFile → Except Str (List FileInfo) × List Effect
  | [] => (.ok [], [])
  | f :: fs =>
    if f.filename.isEmpty then _process_input_files px fs
    else
      match _process_file px f with
      | (.error e, tr) => (.error e, tr)
      | (.ok fi, tr) =>
        match _process_input_files px fs with
        | (.error e, tr2) => (.error e, tr ++ tr2)
        | (.ok rest, tr2) => (.ok (fi :: rest), tr ++ tr2)

/-- The `if user_input:` block of `_build_update_data` (record_service.py
lines 84-88): process the uploads and stage `user_input` when the processed
list is non-empty, also returning the typed list for the shadow entry. -/
def stage_user_input (px : List Byte → Except Str (List Str))
    (user_input : Option (List UploadFile)) :
    Except ServiceError (List (String × Value) × Option (List FileInfo)) ×
      List Effect :=
  match user_input with
  | none => (.ok ([], none), [])
  | some files =>
    if files.isEmpty then (.ok ([], none), [])
    else
      match _process_input_files px files with
      | (.error m, tr) => (.error (.fileProcessing m), tr)
      | (.ok data, tr) =>
        if data.isEmpty then (.ok ([], none), tr)
        else (.ok ([("user_input", Value.files data)], some data), tr)

/-- The `if expected_output and expected_output.filename:` block of
`_build_update_data` (record_service.py lines 91-94): extract the expected
output file once and stage only its columns. -/
def stage_expected_output (px : List Byte → Except Str (List Str))
    (expected_output : Option UploadFile) :
    Except ServiceError (List (String × Value) × Option (List Str)) × List Effect :=
  match expected_output with
  | none => (.ok ([], none), [])
  | some f =>
    if f.filename.isEmpty then (.ok ([], none), [])
    else
      match _process_file px f with
      | (.error m, tr) => (.error (.fileProcessing m), tr)
      | (.ok fd, tr) =>
        (.ok ([("expected_output", Value.cols fd.columns)], some fd.columns), tr)

/-- `RecordService._build_update_data` (lines 71-113): stage the optional
inputs, fail with `NoDataProvidedError` when nothing was staged, then add
the generated `task_id` and `updated_date` and the two typed shadow
entries. -/
def _build_update_data (px : List Byte → Except Str (List Str))
    (taskId : Str) (now : Nat)
    (user_input : Option (List UploadFile)) (expected_output : Option UploadFile)
    (instruction_from_user : Option Str) (client_email_address : Option Str) :
    Except ServiceError (List (String × Value)) × List Effect :=
  match stage_user_input px user_input with
  | (.error e, tr1) => (.error e, tr1)
  | (.ok (d1, user_input_files), tr1) =>
    match stage_expected_output px expected_output with
    | (.error e, tr2) => (.error e, tr1 ++ tr2)
    | (.ok (d2, expected_output_columns), tr2) =>
      let d3 := match instruction_from_user with
        | some s => [("instruction_from_user", Value.str s)]
        | none => []
      let d4 := match client_email_address with
        | some s => [("client_email_address", Value.str s)]
        | none => []
      let staged := d1 ++ d2 ++ d3 ++ d4
      if staged.isEmpty then
        (.error (.noDataProvided "No data provided for update".toList), tr1 ++ tr2)
      else
        (.ok (staged ++
          [("task_id", Value.str taskId),
           ("updated_date", Value.time now),
           ("_user_input_files", Value.shadowFiles user_input_files),
           ("_expected_output_columns", Value.shadowCols expected_output_columns)]),
         tr1 ++ tr2)

/-- Lookup of a key in the staged dictionary (keys are unique by
construction). -/
def dictLookup (d : List (String × Value)) (k : String) : Option Value :=
  (d.find? (fun kv => kv.1 == k)).map (fun kv => kv.2)

/-- `update_data.pop(k, None)` restricted to its removal component. -/
def dictPop (d : List (String × Value)) (k : String) : List (String × Value) :=
  d.filter (fun kv => kv.1 ≠ k)

/-- The value returned by `update_data.pop("_user_input_files", None)`. -/
def getShadowFiles (d : List (String × Value)) : Option (List FileInfo) :=
  match dictLookup d "_user_input_files" with
  | some (.shadowFiles o) => o
  | _ => none

/-- The value returned by `update_data.pop("_expected_output_columns", None)`. -/
def getShadowCols (d : List (String × Value)) : Option (List Str) :=
  match dictLookup d "_expected_output_columns" with
  | some (.shadowCols o) => o
  | _ => none

/-- `update_data.get("instruction_from_user")` and friends. -/
def getOptStr (d : List (String × Value)) (k : String) : Option Str :=
  match dictLookup d k with
  | some (.str s) => some s
  | _ => none

/-- `update_data["task_id"]`; the key is always present when this runs. -/
def getStrD (d : List (String × Value)) (k : String) : Str :=
  match dictLookup d k with
  | some (.str s) => s
  | _ => []

/-- `update_data["updated_date"]`; the key is always present when this runs. -/
def getTimeD (d : List (String × Value)) (k : String) : Nat :=
  match dictLookup d k with
  | some (.time t) => t
  | _ => 0

/-- `UpdateRecordData` (db/schemas.py): the typed payload of a successful
update response. -/
structure UpdateRecordData where
  task_id : Str
  user_input : Option (List FileInfo)
  expected_output : Option (List Str)
  instruction_from_user : Option Str
  client_email_address : Option Str
  updated_date : Nat
deriving DecidableEq, Repr

/-- `UpdateRecordResponse` (db/schemas.py). -/
structure UpdateRecordResponse where
  status : String
  message : String
  data : Option UpdateRecordData
deriving DecidableEq, Repr

/-- `RecordService.update_record` (record_service.py lines 115-159):
validate the identifier, probe existence, compose the update, pop the typed
shadow entries, apply the `$set` write and build the typed response. The
pair's second component is the ordered trace of store and parse effects. -/
def update_record (w : World) (px : List Byte → Except Str (List Str))
    (record_id : Str)
    (user_input : Option (List UploadFile)) (expected_output : Option UploadFile)
    (instruction_from_user : Option Str) (client_email_address : Option Str) :
    Except ServiceError UpdateRecordResponse × List Effect :=
  if ¬ isValidObjectIdStr record_id then
    (.error (.invalidRecordId "Invalid record ID format".toList), [])
  else if ¬ w.recordFound then
    (.error (.recordNotFound "Record not found".toList), [.findOne])
  else
    match _build_update_data px w.taskId w.now user_input expected_output
        instruction_from_user client_email_address with
    | (.error e, tr) => (.error e, .findOne :: tr)
    | (.ok update_data, tr) =>
      let user_input_files := getShadowFiles update_data
      let expected_output_columns := getShadowCols update_data
      let doc := dictPop (dictPop update_data "_user_input_files")
        "_expected_output_columns"
      let trace := .findOne :: (tr ++ [.updateOne doc])
      if w.modifiedCount == 0 then
        (.ok ⟨"unchanged", "No changes made to the record", none⟩, trace)
      else
        (.ok ⟨"success", "Record updated successfully", some
          { task_id := getStrD doc "task_id"
            user_input := user_input_files
            expected_output := expected_output_columns
            instruction_from_user := getOptStr doc "instruction_from_user"
            client_email_address := getOptStr doc "client_email_address"
            updated_date := getTimeD doc "updated_date" }⟩, trace)

/-- `DBConnectionResponse` (db/schemas.py). -/
structure DBConnectionResponse where
  status : String
  message : Str
  database : Option String
deriving DecidableEq, Repr

/-- `RecordService.check_db_connection` (record_service.py lines 161-172):
the lazy connection plus the admin ping, with every exception converted
into an error-status response. `connectDb` and `ping` model the two store
round trips that can raise; their error payloads are the exception texts. -/
def check_db_connection (connectDb : Except Str Unit) (ping : Except Str Unit)
    (databaseName : String) : DBConnectionResponse :=
  match connectDb with
  | .error e => ⟨"error", e, none⟩
  | .ok _ =>
    match ping with
    | .error e => ⟨"error", e, none⟩
    | .ok _ => ⟨"connected", "MongoDB connection successful".toList, some databaseName⟩

/-! ## Lemmas about sanitization -/

/-- Every character of the placeholder passes the control-character filter. -/
lemma unnamed_keep : ∀ c ∈ "unnamed_column".toList, keepChar c = true := by
  decide

/-- The sanitizer never returns the empty string: an empty result is
replaced with the placeholder. -/
lemma sanitize_ne_nil (s : Str) : sanitize_column_name s ≠ [] := by
  simp only [sanitize_column_name]
  split
  · decide
  · next h =>
    intro hn
    rw [hn] at h
    simp at h

/-- Every character of a sanitized name passes the control-character
filter. -/
lemma mem_sanitize_keep (s : Str) : ∀ c ∈ sanitize_column_name s, keepChar c = true := by
  intro c hc
  simp only [sanitize_column_name] at hc
  split at hc
  · exact unnamed_keep c hc
  · exact List.of_mem_filter hc

/-- The head of `dropWhile p` fails `p`. -/
lemma head_dropWhile_false (p : Char → Bool) (l : Str) :
    ∀ c, (l.dropWhile p).head? = some c → p c = false := by
  induction l with
  | nil => intro c hc; simp [List.dropWhile] at hc
  | cons a as ih =>
    intro c hc
    rw [List.dropWhile_cons] at hc
    by_cases hp : p a
    · rw [if_pos hp] at hc
      exact ih c hc
    · rw [if_neg hp] at hc
      simp only [List.head?_cons, Option.some.injEq] at hc
      subst hc
      simp only [Bool.not_eq_true] at hp
      exact hp

/-- `dropWhile` only removes elements from the front, so when its result is
non-empty it has the same last element as the input. -/
lemma getLast?_dropWhile (p : Char → Bool) (l : Str) :
    l.dropWhile p = [] ∨ (l.dropWhile p).getLast? = l.getLast? := by
  induction l with
  | nil => exact .inl rfl
  | cons a as ih =>
    rw [List.dropWhile_cons]
    by_cases hp : p a
    · rw [if_pos hp]
      by_cases hd : as.dropWhile p = []
      · exact .inl hd
      · rcases ih with h | h
        · exact .inl h
        · right
          rw [h]
          cases as with
          | nil => exact absurd rfl hd
          | cons b bs => rw [List.getLast?_cons_cons]
    · rw [if_neg hp]
      exact .inr rfl

/-- `dropWhile` is the identity on a list whose head fails the predicate. -/
lemma dropWhile_eq_self_of_head (p : Char → Bool) (l : Str)
    (h : ∀ c, l.head? = some c → p c = false) : l.dropWhile p = l := by
  cases l with
  | nil => rfl
  | cons a as =>
    have ha := h a rfl
    rw [List.dropWhile_cons, if_neg (by simp [ha])]

/-- Stripping is the identity on a list whose first and last characters are
not whitespace. -/
lemma pyStrip_eq_self (t : Str)
    (h1 : ∀ c, t.head? = some c → pyIsSpace c = false)
    (h2 : ∀ c, t.getLast? = some c → pyIsSpace c = false) : pyStrip t = t := by
  unfold pyStrip
  rw [dropWhile_eq_self_of_head _ _ h1]
  rw [dropWhile_eq_self_of_head _ _ (by
    intro c hc
    rw [List.head?_reverse] at hc
    exact h2 c hc)]
  exact List.reverse_reverse t

/-- The first character of a stripped string is not whitespace. -/
lemma head_pyStrip (s : Str) :
    ∀ c, (pyStrip s).head? = some c → pyIsSpace c = false := by
  intro c hc
  unfold pyStrip at hc
  rw [List.head?_reverse] at hc
  rcases getLast?_dropWhile pyIsSpace (s.dropWhile pyIsSpace).reverse with h | h
  · rw [h] at hc; simp at hc
  · rw [h, List.getLast?_reverse] at hc
    exact head_dropWhile_false pyIsSpace s c hc

/-- The last character of a stripped string is not whitespace. -/
lemma getLast_pyStrip (s : Str) :
    ∀ c, (pyStrip s).getLast? = some c → pyIsSpace c = false := by
  intro c hc
  unfold pyStrip at hc
  rw [List.getLast?_reverse] at hc
  exact head_dropWhile_false pyIsSpace (s.dropWhile pyIsSpace).reverse c hc

/-- Stripping whitespace from both ends is idempotent. -/
lemma pyStrip_idem (s : Str) : pyStrip (pyStrip s) = pyStrip s :=
  pyStrip_eq_self (pyStrip s) (head_pyStrip s) (getLast_pyStrip s)

/-- Every element of `dropWhile p l` is an element of `l`. -/
lemma mem_dropWhile_sub (p : Char → Bool) (l : Str) :
    ∀ c ∈ l.dropWhile p, c ∈ l := by
  induction l with
  | nil => intro c hc; simp [List.dropWhile] at hc
  | cons a as ih =>
    intro c hc
    rw [List.dropWhile_cons] at hc
    by_cases hp : p a
    · rw [if_pos hp] at hc
      exact List.mem_cons_of_mem a (ih c hc)
    · rwa [if_neg hp] at hc

/-- Every character of a stripped string occurs in the original. -/
lemma mem_pyStrip (s : Str) : ∀ c ∈ pyStrip s, c ∈ s := by
  intro c hc
  unfold pyStrip at hc
  rw [List.mem_reverse] at hc
  have h1 := mem_dropWhile_sub pyIsSpace (s.dropWhile pyIsSpace).reverse c hc
  rw [List.mem_reverse] at h1
  exact mem_dropWhile_sub pyIsSpace s c h1

/-- On input that already contains no NUL and no control characters, the
sanitizer reduces to stripping (with the emptiness placeholder). -/
lemma sanitize_of_keep (t : Str) (h : ∀ c ∈ t, keepChar c = true) :
    sanitize_column_name t =
      if (pyStrip t).isEmpty then "unnamed_column".toList else pyStrip t := by
  have h0 : t.filter (fun c => c ≠ '\x00') = t := by
    rw [List.filter_eq_self]
    intro a ha
    have hk := h a ha
    rcases eq_or_ne a '\x00' with rfl | hne
    · exact absurd hk (by decide)
    · simp [hne]
  have h1 : (pyStrip t).filter keepChar = pyStrip t := by
    rw [List.filter_eq_self]
    intro a ha
    exact h a (mem_pyStrip t a ha)
  simp only [sanitize_column_name, h0, h1]

/-- Sanitization is idempotent on control-character-free input. -/
lemma sanitize_idem_of_keep (t : Str) (h : ∀ c ∈ t, keepChar c = true) :
    sanitize_column_name (sanitize_column_name t) = sanitize_column_name t := by
  rw [sanitize_of_keep t h]
  by_cases he : (pyStrip t).isEmpty
  · rw [if_pos he]
    decide
  · rw [if_neg he]
    have hmem : ∀ c ∈ pyStrip t, keepChar c = true :=
      fun c hc => h c (mem_pyStrip t c hc)
    rw [sanitize_of_keep _ hmem, pyStrip_idem, if_neg he]

/-- C2 counterexample: `sanitize` is not idempotent as claimed. On
`"\x01 a"` the first pass strips nothing (the control character shields the
space from `strip()`), then deletes the control character, leaving `" a"`;
a second pass strips the now-exposed space, giving `"a"`. -/
theorem sanitize_not_idempotent_counterexample :
    sanitize_column_name (sanitize_column_name ['\x01', ' ', 'a']) ≠
      sanitize_column_name ['\x01', ' ', 'a'] := by
  decide

/-- C2 (amended): sanitization is idempotent from the second application
onward — `sanitize (sanitize (sanitize s)) = sanitize (sanitize s)` for
every string `s`, i.e. every output of a double application is a fixed
point. Single application is not idempotent (see the counterexample). -/
theorem sanitize_idem_after_first (s : Str) :
    sanitize_column_name (sanitize_column_name (sanitize_column_name s)) =
      sanitize_column_name (sanitize_column_name s) :=
  sanitize_idem_of_keep (sanitize_column_name s) (mem_sanitize_keep s)

/-! ## The CSV path never drops columns (C1) -/

/-- C1 counterexample: the CSV header `"  ,abc"` has a first cell that
strips to the empty string, yet the extractor does not omit it — the
sanitizer substitutes `"unnamed_column"` and the returned list has the same
length as the parsed header, not a shorter one. -/
theorem csv_empty_cell_not_dropped_counterexample :
    extract_columns_from_file (fun _ => Except.error [])
        ([32, 32, 44, 97, 98, 99] : List Byte) "h.csv".toList =
      Except.ok ⟨"h.csv".toList, ["unnamed_column".toList, "abc".toList]⟩ ∧
    csvFirstRecord (csvPreprocess ([32, 32, 44, 97, 98, 99] : List Byte)) =
      [[' ', ' '], "abc".toList] ∧
    pyStrip [' ', ' '] = [] ∧
    (csvColumns ([32, 32, 44, 97, 98, 99] : List Byte)).length =
      (csvFirstRecord (csvPreprocess ([32, 32, 44, 97, 98, 99] : List Byte))).length := by
  refine ⟨?_, ?_, ?_, ?_⟩ <;> rfl

/-- C1 (amended): the CSV path substitutes the placeholder instead of
dropping: `sanitize_column_name` never returns an empty string, so the
truthiness filter of the CSV branch keeps every cell, the column list is
exactly the sanitized header, and its length equals the header length —
the same placeholder substitution the spreadsheet path performs. -/
theorem csv_empty_cell_placeholder (content : List Byte) :
    csvColumns content =
      (csvFirstRecord (csvPreprocess content)).map sanitize_column_name ∧
    (csvColumns content).length =
      (csvFirstRecord (csvPreprocess content)).length := by
  have h1 : csvColumns content =
      (csvFirstRecord (csvPreprocess content)).map sanitize_column_name := by
    unfold csvColumns
    rw [List.filter_eq_self]
    intro a ha
    rw [List.mem_map] at ha
    obtain ⟨x, _, rfl⟩ := ha
    simp [List.isEmpty_iff, sanitize_ne_nil x]
  exact ⟨h1, by rw [h1, List.length_map]⟩

/-! ## Decode totality (C9) -/

/-- C9: the encoding-candidate loop always succeeds at or before the
Latin-1 attempt (Latin-1 decodes every byte sequence), so the full loop
returns the same result as its first three candidates and the
Windows-1252 attempt and the invalid-byte-skipping fallback are never
consulted. -/
theorem csv_decode_total (bs : List Byte) :
    ∃ s, firstSuccessfulDecode [PyEncoding.utf8, PyEncoding.utf8sig, PyEncoding.latin1] bs =
        some s ∧
      firstSuccessfulDecode encodings bs = some s ∧
      decodeBest bs = s := by
  cases h1 : utf8Decode bs with
  | some s =>
    exact ⟨s, by simp [firstSuccessfulDecode, decodeWith, h1],
      by simp [firstSuccessfulDecode, decodeWith, encodings, h1],
      by simp [decodeBest, firstSuccessfulDecode, decodeWith, encodings, h1]⟩
  | none =>
    cases h2 : utf8SigDecode bs with
    | some s =>
      exact ⟨s, by simp [firstSuccessfulDecode, decodeWith, h1, h2],
        by simp [firstSuccessfulDecode, decodeWith, encodings, h1, h2],
        by simp [decodeBest, firstSuccessfulDecode, decodeWith, encodings, h1, h2]⟩
    | none =>
      refine ⟨bs.map (fun b => Char.ofNat b.val), ?_, ?_, ?_⟩ <;>
        simp [decodeBest, firstSuccessfulDecode, decodeWith, encodings, h1, h2, latin1Decode]

/-! ## Extractor invariants (C8, C5) -/

/-- C8: every column name in a `FileInfo` produced by the extractor — on
the spreadsheet path as well as the CSV path — is a non-empty string. -/
theorem extract_columns_nonempty (px : List Byte → Except Str (List Str))
    (content : List Byte) (filename : Str) (fi : FileInfo)
    (h : extract_columns_from_file px content filename = .ok fi) :
    ∀ c ∈ fi.columns, c ≠ [] := by
  simp only [extract_columns_from_file] at h
  by_cases hx : lastExt filename = "xlsx".toList ∨ lastExt filename = "xls".toList
  · rw [if_pos hx] at h
    cases hpx : px content with
    | ok labels =>
      rw [hpx] at h
      simp only [Except.ok.injEq] at h
      subst h
      intro c hc
      simp only [List.mem_map] at hc
      obtain ⟨x, _, rfl⟩ := hc
      exact sanitize_ne_nil x
    | error m =>
      rw [hpx] at h
      simp at h
  · rw [if_neg hx] at h
    simp only [Except.ok.injEq] at h
    subst h
    intro c hc
    have hm := List.mem_of_mem_filter hc
    simp only [List.mem_map] at hm
    obtain ⟨x, _, rfl⟩ := hm
    exact sanitize_ne_nil x

/-- Concrete instantiation of the non-empty-columns invariant on the CSV
header `" ,a"`, whose first cell sanitizes to the placeholder. -/
theorem extract_columns_nonempty_witness :
    extract_columns_from_file (fun _ => Except.error []) ([32, 44, 97] : List Byte)
        "h.csv".toList =
      Except.ok ⟨"h.csv".toList, ["unnamed_column".toList, ['a']]⟩ ∧
    ∀ c ∈ (FileInfo.mk "h.csv".toList ["unnamed_column".toList, ['a']]).columns, c ≠ [] :=
  ⟨rfl, extract_columns_nonempty (fun _ => Except.error []) [32, 44, 97]
    "h.csv".toList ⟨"h.csv".toList, ["unnamed_column".toList, ['a']]⟩ rfl⟩

/-- C5: when extraction fails, the failure is exactly a failure of the
underlying parse, re-raised with the message
`Error processing file <filename>: <cause>`, which contains both the
filename and the cause; no `FileInfo` is returned. -/
theorem extract_failure_wrapped (px : List Byte → Except Str (List Str))
    (content : List Byte) (filename e : Str)
    (h : extract_columns_from_file px content filename = .error e) :
    ∃ cause, px content = .error cause ∧ e = fpeMessage filename cause ∧
      filename <:+: e ∧ cause <:+: e := by
  simp only [extract_columns_from_file] at h
  by_cases hx : lastExt filename = "xlsx".toList ∨ lastExt filename = "xls".toList
  · rw [if_pos hx] at h
    cases hpx : px content with
    | ok labels =>
      rw [hpx] at h
      simp at h
    | error cause =>
      rw [hpx] at h
      simp only [Except.error.injEq] at h
      refine ⟨cause, rfl, h.symm, ?_, ?_⟩
      · exact ⟨"Error processing file \x27".toList,
          "\x27: ".toList ++ cause, by rw [← h]; simp [fpeMessage]⟩
      · exact ⟨"Error processing file \x27".toList ++ filename ++ "\x27: ".toList,
          [], by rw [← h]; simp [fpeMessage]⟩
  · rw [if_neg hx] at h
    simp at h

/-- Concrete instantiation of the failure-wrapping theorem: a spreadsheet
whose parse fails with cause `boom`. -/
theorem extract_failure_wrapped_witness :
    ∃ cause, (fun (_ : List Byte) => Except.error (α := List Str) "boom".toList) [] =
        .error cause ∧
      fpeMessage "a.xlsx".toList "boom".toList = fpeMessage "a.xlsx".toList cause ∧
      "a.xlsx".toList <:+: fpeMessage "a.xlsx".toList "boom".toList ∧
      cause <:+: fpeMessage "a.xlsx".toList "boom".toList :=
  extract_failure_wrapped (fun _ => Except.error "boom".toList) [] "a.xlsx".toList
    (fpeMessage "a.xlsx".toList "boom".toList) rfl

/-! ## Service theorems (C3, C7, C6) -/

/-- C3: a record id rejected by the store-native identifier check makes
`update_record` fail with `InvalidRecordIdError` with an empty effect
trace: no `find_one`, no `update_one`, no file parse. -/
theorem update_record_invalid_id_no_access (w : World)
    (px : List Byte → Except Str (List Str)) (record_id : Str)
    (ui : Option (List UploadFile)) (eo : Option UploadFile)
    (instr email : Option Str)
    (h : isValidObjectIdStr record_id = false) :
    update_record w px record_id ui eo instr email =
      (.error (.invalidRecordId "Invalid record ID format".toList), []) := by
  unfold update_record
  rw [if_pos (by simp [h])]

/-- Concrete instantiation of the invalid-id theorem at the three-character
non-hex id `"xyz"`. -/
theorem update_record_invalid_id_no_access_witness :
    update_record ⟨true, 1, [], 0⟩ (fun _ => Except.error []) "xyz".toList
        none none none none =
      (.error (.invalidRecordId "Invalid record ID format".toList), []) :=
  update_record_invalid_id_no_access ⟨true, 1, [], 0⟩ (fun _ => Except.error [])
    "xyz".toList none none none none (by decide)

/-- C7: the connection probe is a total function of the two store round
trips: when both succeed it reports `connected` with the database name, and
when either raises, the exception is converted into an `error` status whose
message is the exception text — it never propagates a failure. -/
theorem check_db_connection_never_throws (c p : Except Str Unit) (db : String) :
    (∃ e, (c = .error e ∨ (c = .ok () ∧ p = .error e)) ∧
      check_db_connection c p db = ⟨"error", e, none⟩) ∨
    (c = .ok () ∧ p = .ok () ∧
      check_db_connection c p db =
        ⟨"connected", "MongoDB connection successful".toList, some db⟩) := by
  cases c with
  | error e => exact .inl ⟨e, .inl rfl, rfl⟩
  | ok u =>
    cases u
    cases p with
    | error e => exact .inl ⟨e, .inr ⟨rfl, rfl⟩, rfl⟩
    | ok u2 =>
      cases u2
      exact .inr ⟨rfl, rfl, rfl⟩

/-- C6: when the staged update was composed successfully but the store
reports `modified_count = 0`, `update_record` returns the `unchanged`
status with no data payload instead of raising. -/
theorem update_record_unchanged_on_zero_modified (w : World)
    (px : List Byte → Except Str (List Str)) (record_id : Str)
    (ui : Option (List UploadFile)) (eo : Option UploadFile)
    (instr email : Option Str) (d : List (String × Value))
    (h1 : isValidObjectIdStr record_id = true)
    (h2 : w.recordFound = true)
    (h3 : w.modifiedCount = 0)
    (h4 : (_build_update_data px w.taskId w.now ui eo instr email).1 = .ok d) :
    (update_record w px record_id ui eo instr email).1 =
      .ok ⟨"unchanged", "No changes made to the record", none⟩ := by
  unfold update_record
  rw [if_neg (by simp [h1]), if_neg (by simp [h2])]
  cases hb : _build_update_data px w.taskId w.now ui eo instr email with
  | mk r tr =>
    rw [hb] at h4
    simp only at h4
    subst h4
    simp [h3]

/-- Concrete instantiation of the unchanged-update theorem: an
instruction-only update against a store reporting zero modified fields. -/
theorem update_record_unchanged_witness :
    (update_record ⟨true, 0, "tid".toList, 7⟩ (fun _ => Except.error [])
        "0123456789abcdef01234567".toList none none (some ['x']) none).1 =
      .ok ⟨"unchanged", "No changes made to the record", none⟩ :=
  update_record_unchanged_on_zero_modified ⟨true, 0, "tid".toList, 7⟩
    (fun _ => Except.error []) "0123456789abcdef01234567".toList none none
    (some ['x']) none
    [("instruction_from_user", Value.str ['x']),
     ("task_id", Value.str "tid".toList),
     ("updated_date", Value.time 7),
     ("_user_input_files", Value.shadowFiles none),
     ("_expected_output_columns", Value.shadowCols none)]
    (by decide) rfl rfl rfl

/-! ## Composition lemmas (towards C4 and C10) -/

/-- Files whose filenames are all empty are skipped without parsing. -/
lemma process_input_files_all_empty (px : List Byte → Except Str (List Str))
    (fs : List UploadFile) (h : ∀ f ∈ fs, f.filename = []) :
    _process_input_files px fs = (.ok [], []) := by
  induction fs with
  | nil => rfl
  | cons f fs ih =>
    have hf : f.filename = [] := h f (by simp)
    unfold _process_input_files
    rw [if_pos (by simp [hf])]
    exact ih (fun g hg => h g (by simp [hg]))

/-- C4: when the four optional inputs stage nothing — no file with a
truthy filename and neither text field present — composition fails with
`NoDataProvidedError` before the generated `task_id` and `updated_date`
could be staged (the result carries no field mapping at all), and the
update call performs no store write. -/
theorem build_update_empty_staging (w : World)
    (px : List Byte → Except Str (List Str)) (record_id : Str)
    (ui : Option (List UploadFile)) (eo : Option UploadFile)
    (instr email : Option Str)
    (h1 : ∀ fs, ui = some fs → ∀ f ∈ fs, f.filename = [])
    (h2 : ∀ f, eo = some f → f.filename = [])
    (h3 : instr = none) (h4 : email = none) :
    _build_update_data px w.taskId w.now ui eo instr email =
      (.error (.noDataProvided "No data provided for update".toList), []) ∧
    ∀ eff ∈ (update_record w px record_id ui eo instr email).2,
      ∀ d, eff ≠ Effect.updateOne d := by
  subst h3 h4
  have hstage1 : stage_user_input px ui = (.ok ([], none), []) := by
    cases ui with
    | none => rfl
    | some fs =>
      have hfs := h1 fs rfl
      by_cases hemp : fs.isEmpty
      · simp [stage_user_input, hemp]
      · simp [stage_user_input, hemp, process_input_files_all_empty px fs hfs]
  have hstage2 : stage_expected_output px eo = (.ok ([], none), []) := by
    cases eo with
    | none => rfl
    | some f =>
      have hf : f.filename = [] := h2 f rfl
      simp [stage_expected_output, hf]
  have hbuild : _build_update_data px w.taskId w.now ui eo none none =
      (.error (.noDataProvided "No data provided for update".toList), []) := by
    simp [_build_update_data, hstage1, hstage2]
  refine ⟨hbuild, ?_⟩
  intro eff heff d
  unfold update_record at heff
  by_cases hv : isValidObjectIdStr record_id
  · rw [if_neg (by simp [hv])] at heff
    by_cases hr : w.recordFound
    · rw [if_neg (by simp [hr]), hbuild] at heff
      simp only [List.mem_singleton] at heff
      simp [heff]
    · rw [if_pos (by simp [hr])] at heff
      simp only [List.mem_singleton] at heff
      simp [heff]
  · rw [if_pos (by simp [hv])] at heff
    simp at heff

/-- Concrete instantiation of the empty-staging theorem: an empty upload
list and no other field. -/
theorem build_update_empty_staging_witness :
    _build_update_data (fun _ => Except.error []) "tid".toList 7 (some []) none
        none none =
      (.error (.noDataProvided "No data provided for update".toList), []) ∧
    ∀ eff ∈ (update_record ⟨true, 1, "tid".toList, 7⟩ (fun _ => Except.error [])
        "0123456789abcdef01234567".toList (some []) none none none).2,
      ∀ d, eff ≠ Effect.updateOne d :=
  build_update_empty_staging ⟨true, 1, "tid".toList, 7⟩ (fun _ => Except.error [])
    "0123456789abcdef01234567".toList (some []) none none none
    (by intro fs h f hf; injection h with h; subst h; cases hf)
    (by intro f h; cases h) rfl rfl

/-! ## Frame lemmas (towards C10) -/

/-- Every effect of processing the upload list is a file parse. -/
lemma process_input_files_trace (px : List Byte → Except Str (List Str))
    (fs : List UploadFile) :
    ∀ eff ∈ (_process_input_files px fs).2, ∃ g, eff = Effect.parseFile g := by
  induction fs with
  | nil => intro eff heff; simp [_process_input_files] at heff
  | cons f fs ih =>
    intro eff heff
    unfold _process_input_files at heff
    by_cases hf : f.filename.isEmpty
    · rw [if_pos hf] at heff
      exact ih eff heff
    · rw [if_neg hf] at heff
      simp only [_process_file] at heff
      cases hx : extract_columns_from_file px f.content f.filename with
      | error e =>
        rw [hx] at heff
        simp only [List.mem_singleton] at heff
        exact ⟨f.filename, heff⟩
      | ok fi =>
        rw [hx] at heff
        cases hrec : _process_input_files px fs with
        | mk r2 tr2 =>
          rw [hrec] at heff
          have hmem : eff ∈ Effect.parseFile f.filename :: tr2 := by
            cases r2 with
            | error e => simpa using heff
            | ok rest => simpa using heff
          rcases List.mem_cons.mp hmem with h | h
          · exact ⟨f.filename, h⟩
          · exact ih eff (by rw [hrec]; exact h)

/-- Every effect of the user-input staging step is a file parse. -/
lemma stage_user_input_trace (px : List Byte → Except Str (List Str))
    (ui : Option (List UploadFile)) :
    ∀ eff ∈ (stage_user_input px ui).2, ∃ g, eff = Effect.parseFile g := by
  intro eff heff
  cases ui with
  | none => simp [stage_user_input] at heff
  | some fs =>
    simp only [stage_user_input] at heff
    by_cases hemp : fs.isEmpty
    · rw [if_pos hemp] at heff
      simp at heff
    · rw [if_neg hemp] at heff
      cases hrec : _process_input_files px fs with
      | mk r tr =>
        rw [hrec] at heff
        have : eff ∈ tr := by
          cases r with
          | error e => simpa using heff
          | ok data =>
            by_cases hd : data.isEmpty
            · simpa [hd] using heff
            · simpa [hd] using heff
        exact process_input_files_trace px fs eff (by rw [hrec]; exact this)

/-- Every effect of the expected-output staging step is a file parse. -/
lemma stage_expected_output_trace (px : List Byte → Except Str (List Str))
    (eo : Option UploadFile) :
    ∀ eff ∈ (stage_expected_output px eo).2, ∃ g, eff = Effect.parseFile g := by
  intro eff heff
  cases eo with
  | none => simp [stage_expected_output] at heff
  | some f =>
    simp only [stage_expected_output] at heff
    by_cases hf : f.filename.isEmpty
    · rw [if_pos hf] at heff
      simp at heff
    · rw [if_neg hf] at heff
      simp only [_process_file] at heff
      cases hx : extract_columns_from_file px f.content f.filename with
      | error e =>
        rw [hx] at heff
        simp only [List.mem_singleton] at heff
        exact ⟨f.filename, heff⟩
      | ok fi =>
        rw [hx] at heff
        simp only [List.mem_singleton] at heff
        exact ⟨f.filename, heff⟩

/-- Every effect of composition is a file parse: `_build_update_data`
touches no store primitive. -/
lemma build_trace_parse_only (px : List Byte → Except Str (List Str))
    (tid : Str) (now : Nat) (ui : Option (List UploadFile))
    (eo : Option UploadFile) (instr email : Option Str) :
    ∀ eff ∈ (_build_update_data px tid now ui eo instr email).2,
      ∃ g, eff = Effect.parseFile g := by
  intro eff heff
  unfold _build_update_data at heff
  cases h1 : stage_user_input px ui with
  | mk r1 tr1 =>
    rw [h1] at heff
    cases r1 with
    | error e =>
      exact stage_user_input_trace px ui eff (by rw [h1]; exact heff)
    | ok pair1 =>
      obtain ⟨d1, uif⟩ := pair1
      cases h2 : stage_expected_output px eo with
      | mk r2 tr2 =>
        rw [h2] at heff
        have hsplit : eff ∈ tr1 ++ tr2 := by
          cases r2 with
          | error e => exact heff
          | ok pair2 =>
            obtain ⟨d2, eoc⟩ := pair2
            simp only [apply_ite Prod.snd, ite_self] at heff
            exact heff
        rcases List.mem_append.mp hsplit with h | h
        · exact stage_user_input_trace px ui eff (by rw [h1]; exact h)
        · exact stage_expected_output_trace px eo eff (by rw [h2]; exact h)

/-- The user-input staging step only ever stages the `user_input` key. -/
lemma stage_user_input_keys (px : List Byte → Except Str (List Str))
    (ui : Option (List UploadFile)) (d1 : List (String × Value))
    (uif : Option (List FileInfo)) (tr : List Effect)
    (h : stage_user_input px ui = (.ok (d1, uif), tr)) :
    ∀ kv ∈ d1, kv.1 = "user_input" := by
  intro kv hkv
  cases ui with
  | none =>
    simp only [stage_user_input] at h
    obtain ⟨he, -⟩ := Prod.mk.inj h
    obtain ⟨hd, -⟩ := Prod.mk.inj (Except.ok.inj he)
    rw [← hd] at hkv
    cases hkv
  | some fs =>
    simp only [stage_user_input] at h
    by_cases hemp : fs.isEmpty
    · rw [if_pos hemp] at h
      obtain ⟨he, -⟩ := Prod.mk.inj h
      obtain ⟨hd, -⟩ := Prod.mk.inj (Except.ok.inj he)
      rw [← hd] at hkv
      cases hkv
    · rw [if_neg hemp] at h
      cases hrec : _process_input_files px fs with
      | mk r tr2 =>
        rw [hrec] at h
        cases r with
        | error e => simp at h
        | ok data =>
          dsimp only at h
          by_cases hd : data.isEmpty
          · rw [if_pos hd] at h
            obtain ⟨he, -⟩ := Prod.mk.inj h
            obtain ⟨hd1, -⟩ := Prod.mk.inj (Except.ok.inj he)
            rw [← hd1] at hkv
            cases hkv
          · rw [if_neg hd] at h
            obtain ⟨he, -⟩ := Prod.mk.inj h
            obtain ⟨hd1, -⟩ := Prod.mk.inj (Except.ok.inj he)
            rw [← hd1] at hkv
            rcases List.mem_singleton.mp hkv with rfl
            rfl

/-- The expected-output staging step only ever stages the
`expected_output` key. -/
lemma stage_expected_output_keys (px : List Byte → Except Str (List Str))
    (eo : Option UploadFile) (d2 : List (String × Value))
    (eoc : Option (List Str)) (tr : List Effect)
    (h : stage_expected_output px eo = (.ok (d2, eoc), tr)) :
    ∀ kv ∈ d2, kv.1 = "expected_output" := by
  intro kv hkv
  cases eo with
  | none =>
    simp only [stage_expected_output] at h
    obtain ⟨he, -⟩ := Prod.mk.inj h
    obtain ⟨hd, -⟩ := Prod.mk.inj (Except.ok.inj he)
    rw [← hd] at hkv
    cases hkv
  | some f =>
    simp only [stage_expected_output] at h
    by_cases hf : f.filename.isEmpty
    · rw [if_pos hf] at h
      obtain ⟨he, -⟩ := Prod.mk.inj h
      obtain ⟨hd, -⟩ := Prod.mk.inj (Except.ok.inj he)
      rw [← hd] at hkv
      cases hkv
    · rw [if_neg hf] at h
      simp only [_process_file] at h
      cases hx : extract_columns_from_file px f.content f.filename with
      | error e => rw [hx] at h; simp at h
      | ok fi =>
        rw [hx] at h
        obtain ⟨he, -⟩ := Prod.mk.inj h
        obtain ⟨hd, -⟩ := Prod.mk.inj (Except.ok.inj he)
        rw [← hd] at hkv
        rcases List.mem_singleton.mp hkv with rfl
        rfl

/-- The key set of every staged mapping produced by `_build_update_data`:
the four public input fields, the two generated fields, and the two
internal shadow entries. -/
lemma build_ok_keys (px : List Byte → Except Str (List Str)) (tid : Str)
    (now : Nat) (ui : Option (List UploadFile)) (eo : Option UploadFile)
    (instr email : Option Str) (ud : List (String × Value)) (tr : List Effect)
    (h : _build_update_data px tid now ui eo instr email = (.ok ud, tr)) :
    ∀ kv ∈ ud, kv.1 ∈ (["user_input", "expected_output", "instruction_from_user",
      "client_email_address", "task_id", "updated_date",
      "_user_input_files", "_expected_output_columns"] : List String) := by
  intro kv hkv
  unfold _build_update_data at h
  cases h1 : stage_user_input px ui with
  | mk r1 tr1 =>
    rw [h1] at h
    cases r1 with
    | error e => simp at h
    | ok pair1 =>
      obtain ⟨d1, uif⟩ := pair1
      cases h2 : stage_expected_output px eo with
      | mk r2 tr2 =>
        rw [h2] at h
        cases r2 with
        | error e => simp at h
        | ok pair2 =>
          obtain ⟨d2, eoc⟩ := pair2
          simp only at h
          set d3 := (match instr with
            | some s => [("instruction_from_user", Value.str s)]
            | none => ([] : List (String × Value))) with hd3
          set d4 := (match email with
            | some s => [("client_email_address", Value.str s)]
            | none => ([] : List (String × Value))) with hd4
          by_cases hemp : (d1 ++ d2 ++ d3 ++ d4).isEmpty
          · rw [if_pos hemp] at h
            simp at h
          · rw [if_neg hemp] at h
            obtain ⟨he, -⟩ := Prod.mk.inj h
            have hud := Except.ok.inj he
            rw [← hud] at hkv
            simp only [List.append_assoc, List.mem_append, List.mem_cons,
              List.mem_singleton, List.not_mem_nil] at hkv
            rcases hkv with h1m | h2m | h3m | h4m | h5m
            · rw [stage_user_input_keys px ui d1 uif tr1 h1 kv h1m]
              simp
            · rw [stage_expected_output_keys px eo d2 eoc tr2 h2 kv h2m]
              simp
            · have : kv.1 = "instruction_from_user" := by
                rcases instr with _ | s
                · rw [hd3] at h3m; cases h3m
                · rw [hd3] at h3m
                  rcases List.mem_singleton.mp h3m with rfl
                  rfl
              rw [this]; simp
            · have : kv.1 = "client_email_address" := by
                rcases email with _ | s
                · rw [hd4] at h4m; cases h4m
                · rw [hd4] at h4m
                  rcases List.mem_singleton.mp h4m with rfl
                  rfl
              rw [this]; simp
            · rcases h5m with rfl | rfl | rfl | rfl | hf
              · simp
              · simp
              · simp
              · simp
              · exact hf.elim

/-- C10: every document handed to the store write contains only public
fields — the two internal typed-shadow entries are popped before
`update_one`, so each key of the written partial update is one of the four
input fields or the two generated fields. -/
theorem update_one_doc_public_keys (w : World)
    (px : List Byte → Except Str (List Str)) (record_id : Str)
    (ui : Option (List UploadFile)) (eo : Option UploadFile)
    (instr email : Option Str) (doc : List (String × Value))
    (h : Effect.updateOne doc ∈ (update_record w px record_id ui eo instr email).2) :
    ∀ kv ∈ doc, kv.1 ∈ (["user_input", "expected_output", "instruction_from_user",
      "client_email_address", "task_id", "updated_date"] : List String) := by
  unfold update_record at h
  by_cases hv : isValidObjectIdStr record_id
  · rw [if_neg (by simp [hv])] at h
    by_cases hr : w.recordFound
    · rw [if_neg (by simp [hr])] at h
      cases hb : _build_update_data px w.taskId w.now ui eo instr email with
      | mk r tr =>
        rw [hb] at h
        have htr : ∀ eff ∈ tr, ∃ g, eff = Effect.parseFile g := fun eff he =>
          build_trace_parse_only px w.taskId w.now ui eo instr email eff
            (by rw [hb]; exact he)
        cases r with
        | error e =>
          rcases List.mem_cons.mp h with hc | hc
          · exact absurd hc (by simp)
          · obtain ⟨g, hg⟩ := htr _ hc
            exact absurd hg (by simp)
        | ok ud =>
          dsimp only at h
          simp only [apply_ite Prod.snd, ite_self] at h
          rcases List.mem_cons.mp h with hc | hc
          · exact absurd hc (by simp)
          rcases List.mem_append.mp hc with hc2 | hc2
          · obtain ⟨g, hg⟩ := htr _ hc2
            exact absurd hg (by simp)
          · have heq := List.mem_singleton.mp hc2
            have hdoc : doc =
                dictPop (dictPop ud "_user_input_files") "_expected_output_columns" := by
              injection heq
            intro kv hkv
            rw [hdoc] at hkv
            have hk2 := List.of_mem_filter hkv
            have hkv1 := List.mem_of_mem_filter hkv
            have hk1 := List.of_mem_filter hkv1
            have hkv0 := List.mem_of_mem_filter hkv1
            have h8 := build_ok_keys px w.taskId w.now ui eo instr email ud tr hb kv hkv0
            simp only [decide_eq_true_eq] at hk1 hk2
            simp only [List.mem_cons, List.mem_singleton, List.not_mem_nil,
              or_false] at h8 ⊢
            rcases h8 with h | h | h | h | h | h | h | h
            · exact .inl h
            · exact .inr (.inl h)
            · exact .inr (.inr (.inl h))
            · exact .inr (.inr (.inr (.inl h)))
            · exact .inr (.inr (.inr (.inr (.inl h))))
            · exact .inr (.inr (.inr (.inr (.inr h))))
            · exact absurd h hk1
            · exact absurd h hk2
    · rw [if_pos (by simp [hr])] at h
      simp at h
  · rw [if_pos (by simp [hv])] at h
    simp at h

/-- Concrete instantiation of the public-keys theorem on an
instruction-only update. -/
theorem update_one_doc_public_keys_witness :
    Effect.updateOne [("instruction_from_user", Value.str ['x']),
        ("task_id", Value.str "tid".toList), ("updated_date", Value.time 7)] ∈
      (update_record ⟨true, 1, "tid".toList, 7⟩ (fun _ => Except.error [])
        "0123456789abcdef01234567".toList none none (some ['x']) none).2 ∧
    ∀ kv ∈ ([("instruction_from_user", Value.str ['x']),
        ("task_id", Value.str "tid".toList), ("updated_date", Value.time 7)] :
        List (String × Value)),
      kv.1 ∈ (["user_input", "expected_output", "instruction_from_user",
        "client_email_address", "task_id", "updated_date"] : List String) :=
  ⟨by decide,
   update_one_doc_public_keys ⟨true, 1, "tid".toList, 7⟩ (fun _ => Except.error [])
     "0123456789abcdef01234567".toList none none (some ['x']) none
     [("instruction_from_user", Value.str ['x']),
      ("task_id", Value.str "tid".toList), ("updated_date", Value.time 7)]
     (by decide)⟩

end BatchEngine
